import Mathlib

/-!
Verification of `src/src/cc_debug.c` (ccommon debug module): a shallow
embedding of the leveled logging write path `_log`, the hexdump renderer
`_log_hexdump`, the assertion reporter `debug_assert`, and the module
lifecycle `debug_setup`, together with theorems about their behaviour.

Buffers are modelled as `List Char`; byte buffers as `List Nat` read
through the C code's `(unsigned char)` casts (an explicit `% 256` at each
cast site).  The external collaborators that are declared but not defined
under `src/` (the bounded formatter `cc_scnprintf`/`cc_vscnprintf` from
`cc_print`, the buffer capacity `LOG_MAX_LEN` from `cc_log.h`, and the
result type `rstatus_i`) are modelled from the spec, as marked on their
doc comments.
-/

/-- Modelled from the spec: the fixed capacity of the log record buffer
(`LOG_MAX_LEN`, defined in `cc_log.h`, which is not under `src/`).  The
spec calls it "a fixed-capacity buffer (bounded, e.g. a few KB)"; we use
2560 bytes. -/
def LOG_MAX_LEN : Nat := 2560

/-- The logger handle of `cc_debug.h`: `logger` records whether
`dl->logger` is non-NULL (the log target exists), `level` is the `int`
severity threshold. -/
structure debug_logger where
  logger : Bool
  level : Int
deriving DecidableEq

/-- The module-wide state touched by `debug_setup`/`debug_teardown`:
the default logger `dlog` and the `static bool debug_init` flag. -/
structure debug_state where
  dlog : debug_logger
  debug_init : Bool
deriving DecidableEq

/-- Modelled from the spec: the result type of `setup`
(`rstatus_i` from `cc_define.h`, not under `src/`); the spec's
`Result<(), SetupError>` collapsed to ok/error as the code returns
only `CC_OK`/`CC_ERROR` here. -/
inductive rstatus_i where
  | CC_OK
  | CC_ERROR
deriving DecidableEq

/-- Result of one call to `_log` / `_log_hexdump`: `write = some buf`
means exactly one `_log_write(dl->logger, buf, buf.length)` call was
performed with contents `buf`; `write = none` means the call returned on
an early-return path with no write.  `errno_out` is the value of `errno`
when the call returns, given its value at entry (threaded explicitly). -/
structure log_result where
  write : Option (List Char)
  errno_out : Int
deriving DecidableEq

/-- Modelled from the spec: the Formatter collaborator
(`cc_scnprintf`/`cc_vscnprintf` from `cc_print`, not under `src/`): a
"bounded/truncating format-into-buffer primitive returning the number of
bytes written".  `acc` is the buffer contents so far (so `acc.length` is
the C `len`), `size` the total buffer capacity; the fully rendered text
`s` is appended truncated to the remaining capacity minus one byte
reserved for the terminating NUL, exactly as `snprintf`-family
formatters behave.  The return value `len += ...` of the C code is the
length of the result. -/
def scnApp (size : Nat) (acc : List Char) (s : List Char) : List Char :=
  acc ++ s.take (size - acc.length - 1)

/-- `static char * level_str[]` of cc_debug.c, lines 39-48. -/
def level_str : List (List Char) :=
  ["ALWAYS".data, "CRIT".data, "ERROR".data, "WARN".data,
   "INFO".data, "DEBUG".data, "VERB".data, "VVERB".data]

/-- The text rendered by the first `cc_scnprintf` call of `_log`
(cc_debug.c lines 175-176): `"[%.*s][%s] %s:%d "` with arguments
`strlen(timestr) - 1`, `timestr`, `level_str[level]`, `file`, `line`.
The `%.*s` precision prints the first `strlen(timestr) - 1` characters
of `timestr` (dropping the trailing newline `asctime` produces). -/
def logHeader (timestr : List Char) (level : Int) (file : List Char)
    (line : Int) : List Char :=
  "[".data ++ timestr.take (timestr.length - 1) ++ "][".data
    ++ level_str.getD level.toNat [] ++ "] ".data ++ file ++ ":".data
    ++ (toString line).data ++ " ".data

/-- `_log` (cc_debug.c lines 154-187).  The varargs body
`cc_vscnprintf(buf+len, size-len, fmt, args)` is modelled by taking the
fully rendered message `msg` and truncating it to the remaining space
(the Formatter collaborator renders then truncates).  `timestr` is the
string returned by `asctime(localtime(&t))`.  `errno` is
the caller's errno at entry and `write_errno` the (arbitrary) value
errno holds after the `_log_write` call; the code saves errno before
formatting and restores it after the write. -/
def _log (dl : debug_logger) (file : List Char) (line : Int) (level : Int)
    (timestr : List Char) (msg : List Char) (errno : Int) (write_errno : Int) :
    log_result :=
  if dl.logger = false ∨ dl.level < level then
    { write := none, errno_out := errno }
  else
    let errno_save := errno
    let size := LOG_MAX_LEN
    -- "[%.*s][%s] %s:%d " with strlen(timestr)-1, timestr,
    -- level_str[level], file, line
    let buf := scnApp size [] (logHeader timestr level file line)
    let buf := scnApp size buf msg
    -- buf[len++] = '\n'
    let buf := buf ++ ['\n']
    { write := some buf, errno_out := errno_save }

/-- `"%08x"` of the row offset: eight zero-padded lowercase hex digits.
All offsets reachable in `_log_hexdump` are nonnegative C `int` values,
hence below `16^8`, where `%08x` prints exactly eight digits. -/
def hex8 (n : Nat) : List Char :=
  [Nat.digitChar (n / 16 ^ 7 % 16), Nat.digitChar (n / 16 ^ 6 % 16),
   Nat.digitChar (n / 16 ^ 5 % 16), Nat.digitChar (n / 16 ^ 4 % 16),
   Nat.digitChar (n / 16 ^ 3 % 16), Nat.digitChar (n / 16 ^ 2 % 16),
   Nat.digitChar (n / 16 % 16), Nat.digitChar (n % 16)]

/-- `"%02x"` of one byte: two zero-padded lowercase hex digits.  Every
call site passes a `(unsigned char)` value (`< 256`), where `%02x`
prints exactly two digits. -/
def hex2 (c : Nat) : List Char :=
  [Nat.digitChar (c / 16 % 16), Nat.digitChar (c % 16)]

/-- The separator after hex column `i`: `(i == 7) ? "  " : " "`. -/
def hexSep (i : Nat) : List Char :=
  if i = 7 then [' ', ' '] else [' ']

/-- C-locale `isprint` on a byte value: printable iff `0x20 ≤ c ≤ 0x7e`.
(The C code applies `isprint` to `*data` read as a byte; on bytes
`≥ 0x80` with a signed `char` this would be undefined in C, so the model
fixes the unsigned-char reading.) -/
def isprint (c : Nat) : Bool :=
  32 ≤ c && c ≤ 126

/-- One ASCII-gutter character:
`(unsigned char)(isprint(*data) ? *data : '.')`. -/
def asciiChar (b : Nat) : Char :=
  if isprint (b % 256) then Char.ofNat (b % 256) else '.'

/-- The first inner loop of `_log_hexdump` (lines 220-224): hex columns
for the current 16-byte chunk.  The C loop guard
`datalen != 0 && i < 16` starting from `i = 0` consumes exactly
`data.take 16`, which the caller passes as `chunk`. -/
def hexCols (size : Nat) (acc : List Char) (chunk : List Nat) (i : Nat) :
    List Char :=
  match chunk with
  | [] => acc
  | c :: rest =>
      hexCols size (scnApp size acc (hex2 (c % 256) ++ hexSep i)) rest (i + 1)

/-- Iteration core of the padding loop: run the body `n` more times
starting at column `i` (structural recursion on the trip count so the
definition computes). -/
def padColsGo (size : Nat) (acc : List Char) (i : Nat) : Nat → List Char
  | 0 => acc
  | n + 1 =>
      padColsGo size (scnApp size acc ([' ', ' '] ++ hexSep i)) (i + 1) n

/-- The padding loop of `_log_hexdump` (lines 225-228): for the
remaining columns `i < 16` append `"  %s"` with the column separator;
the loop `for ( ; i < 16; i++)` runs exactly `16 - i` times. -/
def padCols (size : Nat) (acc : List Char) (i : Nat) : List Char :=
  padColsGo size acc i (16 - i)

/-- The ASCII-gutter loop of `_log_hexdump` (lines 235-238), over the
same 16-byte chunk (the C code restored `data`/`datalen` from
`save`/`savelen`). -/
def asciiCols (size : Nat) (acc : List Char) (chunk : List Nat) : List Char :=
  match chunk with
  | [] => acc
  | c :: rest => asciiCols size (scnApp size acc [asciiChar c]) rest

/-- Iteration core of the `while (datalen != 0 && (len < size - 1))`
loop of `_log_hexdump` (lines 210-242), one iteration per 16-byte row:
offset field, hex columns, padding, `"  |"`, ASCII gutter, `"|\n"`,
then `off += 16` and the next chunk.  The recursion is structural on a
trip-count bound `fuel`; every iteration consumes at least one byte of
`data`, so any `fuel ≥ data.length` gives the exact loop semantics
(the `fuel = 0, data ≠ []` arm is unreachable from `hexRows`). -/
def hexRowsGo (size : Nat) : Nat → List Char → List Nat → Nat → List Char
  | _, acc, [], _ => acc
  | 0, acc, _ :: _, _ => acc
  | fuel + 1, acc, d :: ds, off =>
    if acc.length < size - 1 then
      let acc1 := scnApp size acc (hex8 off ++ [' ', ' '])
      let chunk := (d :: ds).take 16
      let acc2 := hexCols size acc1 chunk 0
      let acc3 := padCols size acc2 chunk.length
      let acc4 := scnApp size acc3 [' ', ' ', '|']
      let acc5 := asciiCols size acc4 chunk
      let acc6 := scnApp size acc5 ['|', '\n']
      hexRowsGo size fuel acc6 ((d :: ds).drop 16) (off + 16)
    else acc

/-- The row loop of `_log_hexdump`, entered with the full byte buffer:
`data.length` bounds the number of iterations. -/
def hexRows (size : Nat) (acc : List Char) (data : List Nat) (off : Nat) :
    List Char :=
  hexRowsGo size data.length acc data off

/-- `_log_hexdump` (cc_debug.c lines 194-247).  `data` is the byte
buffer with `datalen = data.length`; the output buffer has capacity
`8 * LOG_MAX_LEN`.  `errno` / `write_errno` as in `_log`. -/
def _log_hexdump (dl : debug_logger) (level : Int) (data : List Nat)
    (errno : Int) (write_errno : Int) : log_result :=
  if dl.logger = false ∨ dl.level < level then
    { write := none, errno_out := errno }
  else
    let errno_save := errno
    let buf := hexRows (8 * LOG_MAX_LEN) [] data 0
    { write := some buf, errno_out := errno_save }

/-- Events observable from `debug_assert`: a line written to the raw
stderr stream via `log_stderr`, an invocation of `debug_stacktrace`
with its `skip_count` argument, and the `abort()` call. -/
inductive dbg_event where
  | stderr_line : List Char → dbg_event
  | stacktrace : Int → dbg_event
  | abort_called : dbg_event
deriving DecidableEq

/-- The diagnostic text `"assert '%s' failed @ (%s, %d)"` of
cc_debug.c line 79. -/
def assert_msg (cond file : List Char) (line : Int) : List Char :=
  "assert '".data ++ cond ++ "' failed @ (".data ++ file ++ ", ".data
    ++ (toString line).data ++ ")".data

/-- `debug_assert` (cc_debug.c lines 76-84), as the sequence of events
it performs: one `log_stderr` diagnostic, then — iff `panic` is nonzero
(`if (panic)`) — `debug_stacktrace(1)` followed by `abort()`. -/
def debug_assert (cond file : List Char) (line : Int) (panic : Int) :
    List dbg_event :=
  dbg_event.stderr_line (assert_msg cond file line) ::
    (if panic ≠ 0 then [dbg_event.stacktrace 1, dbg_event.abort_called] else [])

/-- Discriminator: is an event a raw-stderr diagnostic line? -/
def isStderrLine : dbg_event → Bool
  | dbg_event.stderr_line _ => true
  | _ => false

/-- `debug_setup` (cc_debug.c lines 101-136) over the module state.
The collaborator outcomes are passed as oracles: `create_ok` is whether
`log_create(log_file, log_nbuf)` returns non-NULL, `sigsegv_ok` /
`sigttin_ok` whether the two `signal_override` calls return `≥ 0`.
A pre-existing logger is destroyed (`log_destroy` NULLs the handle)
before recreation; on `log_create` failure the handle is the returned
NULL; on success the handle and level are installed *before* the signal
handlers are attempted, and `debug_init` is set only when everything
succeeded. -/
def debug_setup (st : debug_state) (log_level : Int)
    (create_ok sigsegv_ok sigttin_ok : Bool) : rstatus_i × debug_state :=
  -- if (dlog->logger != NULL) log_destroy(&dlog->logger);
  let dl0 := if st.dlog.logger then { st.dlog with logger := false } else st.dlog
  -- dlog->logger = log_create(log_file, log_nbuf);
  if create_ok = false then
    (rstatus_i.CC_ERROR, { st with dlog := { dl0 with logger := false } })
  else
    -- dlog->level = log_level;
    let dl1 : debug_logger := { logger := true, level := log_level }
    if sigsegv_ok = false then (rstatus_i.CC_ERROR, { st with dlog := dl1 })
    else if sigttin_ok = false then (rstatus_i.CC_ERROR, { st with dlog := dl1 })
    else (rstatus_i.CC_OK, { dlog := dl1, debug_init := true })

/-! ## Pure (truncation-free) renderings

The following definitions re-express what the loops of `_log_hexdump`
produce when the output buffer does not fill up; the theorems below
prove them equal to the buffered loops under an explicit size bound. -/

/-- Hex columns of one chunk without buffer truncation. -/
def hexColsP : List Nat → Nat → List Char
  | [], _ => []
  | c :: rest, i => hex2 (c % 256) ++ hexSep i ++ hexColsP rest (i + 1)

/-- Padding columns without buffer truncation. -/
def padColsGoP (i : Nat) : Nat → List Char
  | 0 => []
  | n + 1 => ([' ', ' '] ++ hexSep i) ++ padColsGoP (i + 1) n

/-- Padding from column `i` to 16 without buffer truncation. -/
def padColsP (i : Nat) : List Char :=
  padColsGoP i (16 - i)

/-- ASCII gutter of one chunk without buffer truncation: exactly one
character per real byte of the chunk (the code does not pad short
gutters). -/
def asciiColsP (chunk : List Nat) : List Char :=
  chunk.map asciiChar

/-- One full hexdump row at offset `off` for (at most 16) bytes
`chunk`: 8-hex-digit offset, two spaces, 16 hex columns (missing ones
space-padded), two spaces, `|`, the ASCII gutter, `|`, newline. -/
def rowP (off : Nat) (chunk : List Nat) : List Char :=
  hex8 off ++ [' ', ' '] ++ hexColsP chunk 0 ++ padColsP chunk.length
    ++ [' ', ' ', '|'] ++ asciiColsP chunk ++ ['|', '\n']

/-- Row sequence without buffer truncation (fueled like `hexRowsGo`). -/
def rowsPGo : Nat → List Nat → Nat → List Char
  | _, [], _ => []
  | 0, _ :: _, _ => []
  | fuel + 1, d :: ds, off =>
      rowP off ((d :: ds).take 16)
        ++ rowsPGo fuel ((d :: ds).drop 16) (off + 16)

/-- All hexdump rows for `data` starting at offset `off`. -/
def rowsP (data : List Nat) (off : Nat) : List Char :=
  rowsPGo data.length data off

/-- The hexdump output as an indexed row list: row `k` (of
`⌈data.length / 16⌉` rows) renders bytes `16*k ..` at offset `16*k`. -/
def rowsFlat (data : List Nat) : List Char :=
  ((List.range ((data.length + 15) / 16)).map
    (fun k => rowP (16 * k) ((data.drop (16 * k)).take 16))).flatten

/-- The log-line layout stated by the spec's words
("`[<asctime-without-trailing-newline>][<LEVEL-NAME>] <file>:<line>
<message>` followed by exactly one trailing newline"), for comparison
with what `_log` produces.  `ts_nonl` is the timestamp already without
its trailing newline. -/
def logLineSpec (ts_nonl : List Char) (levelName : List Char)
    (file : List Char) (line : Int) (msg : List Char) : List Char :=
  "[".data ++ ts_nonl ++ "][".data ++ levelName ++ "] ".data ++ file
    ++ ":".data ++ (toString line).data ++ " ".data ++ msg ++ ['\n']

/-! ## Formatter lemmas -/

/-- When the rendered text fits in the remaining capacity (keeping one
byte for the NUL), the bounded formatter appends it whole. -/
theorem scnApp_full {size : Nat} {acc s : List Char}
    (h : acc.length + s.length + 1 ≤ size) :
    scnApp size acc s = acc ++ s := by
  unfold scnApp
  rw [List.take_of_length_le (by omega)]

/-- Length of a bounded-formatter append. -/
theorem scnApp_len (size : Nat) (acc s : List Char) :
    (scnApp size acc s).length
      = acc.length + min (size - acc.length - 1) s.length := by
  simp [scnApp]

/-- The bounded formatter preserves the invariant
`len ≤ size - 1` maintained by the C code. -/
theorem scnApp_le {size : Nat} {acc : List Char} (s : List Char)
    (h : acc.length ≤ size - 1) :
    (scnApp size acc s).length ≤ size - 1 := by
  simp only [scnApp_len]
  omega

/-! ## Loop equivalence under a fitting output buffer -/

/-- `"%02x"` always renders two characters. -/
theorem hex2_len (c : Nat) : (hex2 c).length = 2 := by
  simp [hex2]

/-- `"%08x"` always renders eight characters. -/
theorem hex8_len (n : Nat) : (hex8 n).length = 8 := by
  simp [hex8]

/-- The column separator is one or two spaces. -/
theorem hexSep_len (i : Nat) :
    (hexSep i).length = if i = 7 then 2 else 1 := by
  unfold hexSep
  split <;> simp

/-- The hex-column loop with enough headroom appends its pure rendering. -/
theorem hexCols_eq {size : Nat} :
    ∀ (chunk : List Nat) (i : Nat) (acc : List Char),
      acc.length + (hexColsP chunk i).length + 1 ≤ size →
      hexCols size acc chunk i = acc ++ hexColsP chunk i := by
  intro chunk
  induction chunk with
  | nil => intro i acc _; simp [hexCols, hexColsP]
  | cons c rest ih =>
      intro i acc h
      simp only [hexColsP, List.length_append, hex2_len] at h
      simp only [hexCols, hexColsP]
      rw [scnApp_full (by simp only [List.length_append, hex2_len]; omega)]
      rw [ih (i + 1) (acc ++ (hex2 (c % 256) ++ hexSep i))
        (by simp only [List.length_append, hex2_len]; omega)]
      simp

/-- The padding-loop core with enough headroom appends its pure rendering. -/
theorem padColsGo_eq {size : Nat} :
    ∀ (n i : Nat) (acc : List Char),
      acc.length + (padColsGoP i n).length + 1 ≤ size →
      padColsGo size acc i n = acc ++ padColsGoP i n := by
  intro n
  induction n with
  | zero => intro i acc _; simp [padColsGo, padColsGoP]
  | succ n ih =>
      intro i acc h
      simp only [padColsGoP, List.length_append, List.length_cons,
        List.length_nil] at h
      simp only [padColsGo, padColsGoP]
      rw [scnApp_full (by
        simp only [List.length_append, List.length_cons, List.length_nil]
        omega)]
      rw [ih (i + 1) (acc ++ ([' ', ' '] ++ hexSep i)) (by
        simp only [List.length_append, List.length_cons, List.length_nil]
        omega)]
      simp

/-- The padding loop with enough headroom appends its pure rendering. -/
theorem padCols_eq {size : Nat} (i : Nat) (acc : List Char)
    (h : acc.length + (padColsP i).length + 1 ≤ size) :
    padCols size acc i = acc ++ padColsP i := by
  unfold padCols padColsP at *
  exact padColsGo_eq _ _ _ h

/-- The ASCII-gutter loop with enough headroom appends its pure
rendering (one character per chunk byte). -/
theorem asciiCols_eq {size : Nat} :
    ∀ (chunk : List Nat) (acc : List Char),
      acc.length + chunk.length + 1 ≤ size →
      asciiCols size acc chunk = acc ++ asciiColsP chunk := by
  intro chunk
  induction chunk with
  | nil => intro acc _; simp [asciiCols, asciiColsP]
  | cons c rest ih =>
      intro acc h
      simp only [List.length_cons] at h
      simp only [asciiCols, asciiColsP, List.map_cons]
      rw [scnApp_full (by simp; omega)]
      rw [ih (acc ++ [asciiChar c]) (by simp; omega)]
      simp [asciiColsP]

/-! ## Length of a row -/

/-- Stepping one printed hex column keeps the same footprint as one
padded column, so printed-plus-padding always spans the same width. -/
theorem hexColsP_padColsP_len :
    ∀ (chunk : List Nat) (i : Nat), i + chunk.length ≤ 16 →
      (hexColsP chunk i).length + (padColsP (i + chunk.length)).length
        = (padColsP i).length := by
  intro chunk
  induction chunk with
  | nil => intro i _; simp [hexColsP]
  | cons c rest ih =>
      intro i h
      simp only [List.length_cons] at h
      have hpad : (padColsP i).length
          = 2 + (hexSep i).length + (padColsP (i + 1)).length := by
        unfold padColsP
        have h16 : 16 - i = (16 - (i + 1)) + 1 := by omega
        rw [h16]
        simp only [padColsGoP, List.length_append, List.length_cons,
          List.length_nil]
      have hstep : (hexColsP (c :: rest) i).length
          = 2 + (hexSep i).length + (hexColsP rest (i + 1)).length := by
        simp only [hexColsP, List.length_append, hex2_len]
      have hargs : i + (c :: rest).length = (i + 1) + rest.length := by
        simp only [List.length_cons]
        omega
      rw [hargs]
      have hih := ih (i + 1) (by omega)
      omega

/-- The sixteen hex columns (printed plus padded) plus separators span
exactly 49 characters. -/
theorem padColsP_zero_len : (padColsP 0).length = 49 := by decide

/-- A row for a chunk of `k ≤ 16` bytes is exactly `64 + k` characters:
ten for the offset field, 49 for the hex columns, three for `"  |"`,
`k` for the ASCII gutter and two for `"|\n"`. -/
theorem rowP_len (off : Nat) (chunk : List Nat) (h : chunk.length ≤ 16) :
    (rowP off chunk).length = 64 + chunk.length := by
  have hcols := hexColsP_padColsP_len chunk 0 (by omega)
  simp only [Nat.zero_add] at hcols
  have h49 := padColsP_zero_len
  simp only [rowP, List.length_append, hex8_len, asciiColsP, List.length_map,
    List.length_cons, List.length_nil]
  omega

/-- Total length of the pure row sequence:
`64·⌈n/16⌉ + n` characters for `n` input bytes. -/
theorem rowsPGo_len :
    ∀ (fuel : Nat) (data : List Nat) (off : Nat), data.length ≤ fuel →
      (rowsPGo fuel data off).length
        = 64 * ((data.length + 15) / 16) + data.length := by
  intro fuel
  induction fuel with
  | zero =>
      intro data off h
      have hnil : data = [] := by
        cases data with
        | nil => rfl
        | cons a l => simp at h
      subst hnil
      simp [rowsPGo]
  | succ fuel ih =>
      intro data off h
      cases data with
      | nil => simp [rowsPGo]
      | cons d ds =>
          have hrow := rowP_len off ((d :: ds).take 16)
            (by simp [List.length_take])
          have hih := ih ((d :: ds).drop 16) (off + 16)
            (by simp [List.length_drop] at h ⊢; omega)
          simp only [rowsPGo, List.length_append, hrow, hih,
            List.length_take, List.length_drop, List.length_cons]
          omega

/-- The buffered row loop with enough room in the output buffer for the
whole rendering produces exactly the pure row sequence. -/
theorem hexRowsGo_eq {size : Nat} :
    ∀ (fuel : Nat) (data : List Nat) (off : Nat) (acc : List Char),
      data.length ≤ fuel →
      acc.length + (rowsPGo fuel data off).length + 1 ≤ size →
      hexRowsGo size fuel acc data off = acc ++ rowsPGo fuel data off := by
  intro fuel
  induction fuel with
  | zero =>
      intro data off acc h _
      have hnil : data = [] := by
        cases data with
        | nil => rfl
        | cons a l => simp at h
      subst hnil
      simp [hexRowsGo, rowsPGo]
  | succ fuel ih =>
      intro data off acc hfuel hsize
      cases data with
      | nil => simp [hexRowsGo, rowsPGo]
      | cons d ds =>
          have hch : ((d :: ds).take 16).length ≤ 16 := by
            simp [List.length_take]
          have hrow := rowP_len off ((d :: ds).take 16) hch
          simp only [rowsPGo, List.length_append, hrow] at hsize
          have hcols := hexColsP_padColsP_len ((d :: ds).take 16) 0 (by omega)
          simp only [Nat.zero_add] at hcols
          have h49 := padColsP_zero_len
          have e1 : scnApp size acc (hex8 off ++ [' ', ' '])
              = acc ++ (hex8 off ++ [' ', ' ']) := scnApp_full (by
            simp only [List.length_append, hex8_len, List.length_cons,
              List.length_nil]
            omega)
          have e2 : hexCols size (acc ++ (hex8 off ++ [' ', ' ']))
                ((d :: ds).take 16) 0
              = (acc ++ (hex8 off ++ [' ', ' ']))
                ++ hexColsP ((d :: ds).take 16) 0 := hexCols_eq _ _ _ (by
            simp only [List.length_append, hex8_len, List.length_cons,
              List.length_nil]
            omega)
          have e3 : padCols size ((acc ++ (hex8 off ++ [' ', ' ']))
                ++ hexColsP ((d :: ds).take 16) 0) ((d :: ds).take 16).length
              = ((acc ++ (hex8 off ++ [' ', ' ']))
                ++ hexColsP ((d :: ds).take 16) 0)
                ++ padColsP ((d :: ds).take 16).length := padCols_eq _ _ (by
            simp only [List.length_append, hex8_len, List.length_cons,
              List.length_nil]
            omega)
          have e4 : scnApp size (((acc ++ (hex8 off ++ [' ', ' ']))
                ++ hexColsP ((d :: ds).take 16) 0)
                ++ padColsP ((d :: ds).take 16).length) [' ', ' ', '|']
              = (((acc ++ (hex8 off ++ [' ', ' ']))
                ++ hexColsP ((d :: ds).take 16) 0)
                ++ padColsP ((d :: ds).take 16).length)
                ++ [' ', ' ', '|'] := scnApp_full (by
            simp only [List.length_append, hex8_len, List.length_cons,
              List.length_nil]
            omega)
          have e5 : asciiCols size ((((acc ++ (hex8 off ++ [' ', ' ']))
                ++ hexColsP ((d :: ds).take 16) 0)
                ++ padColsP ((d :: ds).take 16).length)
                ++ [' ', ' ', '|']) ((d :: ds).take 16)
              = ((((acc ++ (hex8 off ++ [' ', ' ']))
                ++ hexColsP ((d :: ds).take 16) 0)
                ++ padColsP ((d :: ds).take 16).length)
                ++ [' ', ' ', '|'])
                ++ asciiColsP ((d :: ds).take 16) := asciiCols_eq _ _ (by
            simp only [List.length_append, hex8_len, List.length_cons,
              List.length_nil]
            omega)
          have e6 : scnApp size (((((acc ++ (hex8 off ++ [' ', ' ']))
                ++ hexColsP ((d :: ds).take 16) 0)
                ++ padColsP ((d :: ds).take 16).length)
                ++ [' ', ' ', '|'])
                ++ asciiColsP ((d :: ds).take 16)) ['|', '\n']
              = (((((acc ++ (hex8 off ++ [' ', ' ']))
                ++ hexColsP ((d :: ds).take 16) 0)
                ++ padColsP ((d :: ds).take 16).length)
                ++ [' ', ' ', '|'])
                ++ asciiColsP ((d :: ds).take 16))
                ++ ['|', '\n'] := scnApp_full (by
            simp only [List.length_append, hex8_len, List.length_cons,
              List.length_nil, asciiColsP, List.length_map]
            omega)
          have e7 := ih ((d :: ds).drop 16) (off + 16)
            ((((((acc ++ (hex8 off ++ [' ', ' ']))
                ++ hexColsP ((d :: ds).take 16) 0)
                ++ padColsP ((d :: ds).take 16).length)
                ++ [' ', ' ', '|'])
                ++ asciiColsP ((d :: ds).take 16))
                ++ ['|', '\n'])
            (by
              simp only [List.length_drop, List.length_cons] at hfuel ⊢
              omega)
            (by
              simp only [List.length_append, hex8_len, List.length_cons,
                List.length_nil, asciiColsP, List.length_map]
              omega)
          simp only [hexRowsGo]
          rw [if_pos (by omega)]
          rw [e1, e2, e3, e4, e5, e6, e7]
          simp only [rowsPGo, rowP, List.append_assoc]

/-- The pure row sequence in indexed form: row `k` is rendered at
offset `off + 16·k` from bytes `16·k ..` of the input. -/
theorem rowsPGo_flat :
    ∀ (fuel : Nat) (data : List Nat) (off : Nat), data.length ≤ fuel →
      rowsPGo fuel data off
        = ((List.range ((data.length + 15) / 16)).map
            (fun k => rowP (off + 16 * k) ((data.drop (16 * k)).take 16))).flatten := by
  intro fuel
  induction fuel with
  | zero =>
      intro data off h
      have hnil : data = [] := by
        cases data with
        | nil => rfl
        | cons a l => simp at h
      subst hnil
      simp [rowsPGo]
  | succ fuel ih =>
      intro data off hfuel
      cases data with
      | nil => simp [rowsPGo]
      | cons d ds =>
          have hstep : rowsPGo (fuel + 1) (d :: ds) off
              = rowP off ((d :: ds).take 16)
                ++ rowsPGo fuel ((d :: ds).drop 16) (off + 16) := rfl
          have hm : ((d :: ds).length + 15) / 16
              = (((d :: ds).drop 16).length + 15) / 16 + 1 := by
            simp only [List.length_drop, List.length_cons]
            omega
          rw [hstep, hm, List.range_succ_eq_map]
          simp only [List.map_cons, List.flatten_cons, List.map_map]
          rw [ih ((d :: ds).drop 16) (off + 16) (by
            simp only [List.length_drop, List.length_cons] at hfuel ⊢
            omega)]
          congr 1
          have hfun : (fun k => rowP (off + 16 + 16 * k)
                (List.take 16 (List.drop (16 * k) (List.drop 16 (d :: ds)))))
              = ((fun k => rowP (off + 16 * k)
                (List.take 16 (List.drop (16 * k) (d :: ds)))) ∘ Nat.succ) := by
            funext k
            simp only [Function.comp_apply, Nat.succ_eq_add_one, List.drop_drop]
            have h1 : off + 16 * (k + 1) = off + 16 + 16 * k := by ring
            have h2 : (16 : Nat) * (k + 1) = 16 + 16 * k := by ring
            rw [h1, h2]
          rw [hfun]

/-! ## Newlines in the rendering: exactly one per row -/

/-- Hex digits are never a newline. -/
theorem digitChar_mod16_ne_nl (m : Nat) : Nat.digitChar (m % 16) ≠ '\n' := by
  have h : ∀ x, x < 16 → Nat.digitChar x ≠ '\n' := by decide
  exact h _ (Nat.mod_lt _ (by norm_num))

/-- The offset field contains no newline. -/
theorem hex8_count_nl (n : Nat) : List.count '\n' (hex8 n) = 0 := by
  rw [List.count_eq_zero]
  intro hmem
  simp only [hex8, List.mem_cons, List.not_mem_nil, or_false] at hmem
  rcases hmem with h | h | h | h | h | h | h | h <;>
    exact digitChar_mod16_ne_nl _ h.symm

/-- A hex byte field contains no newline. -/
theorem hex2_count_nl (c : Nat) : List.count '\n' (hex2 c) = 0 := by
  rw [List.count_eq_zero]
  intro hmem
  simp only [hex2, List.mem_cons, List.not_mem_nil, or_false] at hmem
  rcases hmem with h | h <;> exact digitChar_mod16_ne_nl _ h.symm

/-- Column separators contain no newline. -/
theorem hexSep_count_nl (i : Nat) : List.count '\n' (hexSep i) = 0 := by
  unfold hexSep
  split <;> decide

/-- The hex columns contain no newline. -/
theorem hexColsP_count_nl :
    ∀ (chunk : List Nat) (i : Nat), List.count '\n' (hexColsP chunk i) = 0 := by
  intro chunk
  induction chunk with
  | nil => intro i; simp [hexColsP]
  | cons c rest ih =>
      intro i
      simp [hexColsP, List.count_append, hex2_count_nl, hexSep_count_nl, ih]

/-- The padding columns contain no newline. -/
theorem padColsGoP_count_nl :
    ∀ (n i : Nat), List.count '\n' (padColsGoP i n) = 0 := by
  intro n
  induction n with
  | zero => intro i; simp [padColsGoP]
  | succ n ih =>
      intro i
      have l1 : List.count '\n' ([' ', ' '] : List Char) = 0 := by decide
      simp [padColsGoP, List.count_append, hexSep_count_nl, ih, l1]

/-- The padding columns contain no newline. -/
theorem padColsP_count_nl (i : Nat) : List.count '\n' (padColsP i) = 0 :=
  padColsGoP_count_nl _ _

/-- ASCII-gutter characters are printable or `'.'`, never a newline. -/
theorem asciiChar_ne_nl (b : Nat) : asciiChar b ≠ '\n' := by
  unfold asciiChar
  split_ifs with h
  · have hb : 32 ≤ b % 256 ∧ b % 256 ≤ 126 := by
      simpa [isprint] using h
    have hgen : ∀ x, x < 127 → 32 ≤ x → Char.ofNat x ≠ '\n' := by decide
    exact hgen _ (by omega) hb.1
  · decide

/-- The ASCII gutter contains no newline. -/
theorem asciiColsP_count_nl (chunk : List Nat) :
    List.count '\n' (asciiColsP chunk) = 0 := by
  rw [List.count_eq_zero]
  intro hmem
  simp only [asciiColsP, List.mem_map] at hmem
  obtain ⟨b, _, hb⟩ := hmem
  exact asciiChar_ne_nl b hb

/-- Each row ends with its one and only newline. -/
theorem rowP_count_nl (off : Nat) (chunk : List Nat) :
    List.count '\n' (rowP off chunk) = 1 := by
  have l1 : List.count '\n' ([' ', ' '] : List Char) = 0 := by decide
  have l2 : List.count '\n' ([' ', ' ', '|'] : List Char) = 0 := by decide
  have l3 : List.count '\n' (['|', '\n'] : List Char) = 1 := by decide
  simp [rowP, List.count_append, hex8_count_nl, hexColsP_count_nl,
    padColsP_count_nl, asciiColsP_count_nl, l1, l2, l3]

/-- The row sequence for `n` bytes contains exactly `⌈n/16⌉` newlines,
one per row. -/
theorem rowsPGo_count_nl :
    ∀ (fuel : Nat) (data : List Nat) (off : Nat), data.length ≤ fuel →
      List.count '\n' (rowsPGo fuel data off) = (data.length + 15) / 16 := by
  intro fuel
  induction fuel with
  | zero =>
      intro data off h
      have hnil : data = [] := by
        cases data with
        | nil => rfl
        | cons a l => simp at h
      subst hnil
      simp [rowsPGo]
  | succ fuel ih =>
      intro data off h
      cases data with
      | nil => simp [rowsPGo]
      | cons d ds =>
          have hstep : rowsPGo (fuel + 1) (d :: ds) off
              = rowP off ((d :: ds).take 16)
                ++ rowsPGo fuel ((d :: ds).drop 16) (off + 16) := rfl
          rw [hstep, List.count_append, rowP_count_nl,
            ih ((d :: ds).drop 16) (off + 16) (by
              simp only [List.length_drop, List.length_cons] at h ⊢
              omega)]
          simp only [List.length_drop, List.length_cons]
          omega

/-! ## Write-path characterisations -/

/-- `_log` skips (performs no write) exactly on the guard
`dl->logger == NULL || dl->level < level`. -/
theorem _log_write_none_iff (dl : debug_logger) (file : List Char)
    (line : Int) (level : Int) (ts msg : List Char) (e w : Int) :
    (_log dl file line level ts msg e w).write = none
      ↔ (dl.logger = false ∨ dl.level < level) := by
  unfold _log
  split_ifs with h
  · simp [h]
  · simp [h]

/-- `_log_hexdump` skips (performs no write) exactly on the guard
`dl->logger == NULL || dl->level < level`. -/
theorem _log_hexdump_write_none_iff (dl : debug_logger) (level : Int)
    (data : List Nat) (e w : Int) :
    (_log_hexdump dl level data e w).write = none
      ↔ (dl.logger = false ∨ dl.level < level) := by
  unfold _log_hexdump
  split_ifs with h
  · simp [h]
  · simp [h]

/-- On the emitting path, the hexdump write is the full pure row
sequence in indexed form, provided the whole rendering fits the
`8 * LOG_MAX_LEN` output buffer. -/
theorem hexdump_write_eq (dl : debug_logger) (level : Int) (data : List Nat)
    (e w : Int) (hact : dl.logger = true) (hlvl : ¬ dl.level < level)
    (hfit : 64 * ((data.length + 15) / 16) + data.length + 1 ≤ 8 * LOG_MAX_LEN) :
    (_log_hexdump dl level data e w).write = some (rowsFlat data) := by
  have hbody : _log_hexdump dl level data e w
      = { write := some (hexRows (8 * LOG_MAX_LEN) [] data 0), errno_out := e } := by
    unfold _log_hexdump
    rw [if_neg (by simp [hact, hlvl])]
  rw [hbody]
  have hlen := rowsPGo_len data.length data 0 le_rfl
  have heq := @hexRowsGo_eq (8 * LOG_MAX_LEN) data.length data 0 [] le_rfl
    (by simp only [List.length_nil, Nat.zero_add]; rw [hlen]; omega)
  simp only [hexRows, heq, List.nil_append]
  rw [rowsPGo_flat data.length data 0 le_rfl]
  unfold rowsFlat
  simp only [Nat.zero_add]

/-- On the emitting path, `_log` performs exactly one write of the
(possibly truncated) header-plus-message record with the appended
newline, and restores errno. -/
theorem _log_emit (dl : debug_logger) (file : List Char) (line : Int)
    (level : Int) (ts msg : List Char) (e w : Int)
    (hact : dl.logger = true) (hlvl : ¬ dl.level < level) :
    _log dl file line level ts msg e w
      = { write := some (scnApp LOG_MAX_LEN
            (scnApp LOG_MAX_LEN [] (logHeader ts level file line)) msg
            ++ ['\n']),
          errno_out := e } := by
  unfold _log
  rw [if_neg (by simp [hact, hlvl])]

/-- Write performed by `_log` on the emitting path. -/
theorem _log_write_some (dl : debug_logger) (file : List Char) (line : Int)
    (level : Int) (ts msg : List Char) (e w : Int)
    (hact : dl.logger = true) (hlvl : ¬ dl.level < level) :
    (_log dl file line level ts msg e w).write
      = some (scnApp LOG_MAX_LEN
          (scnApp LOG_MAX_LEN [] (logHeader ts level file line)) msg
          ++ ['\n']) := by
  rw [_log_emit dl file line level ts msg e w hact hlvl]

/-! ## Claims -/

/-- Claim C1, counterexample: the claim quantifies over severities
`S1 ≤ S2` and asserts a write at `S2` under threshold `S1` is
suppressed; at `S1 = S2 = 1` (threshold CRIT, write CRIT) the code
emits the record, so the claim as stated is false. -/
theorem C1_counterexample :
    ((1 : Int) ≤ 1)
    ∧ (_log { logger := true, level := 1 } "f.c".data 7 1 "T\n".data
        "m".data 0 0).write ≠ none := by
  decide

/-- Claim C1 (amended): on an active logger with threshold `T`, `_log`
skips exactly when `T < L`; hence for severities `S1 < S2` (strictly
less severe `S2`) a write at `S2` under threshold `S1` is suppressed,
a write at `S1` itself is emitted, and a write at severity ALWAYS
(level 0) is emitted under every non-negative threshold. -/
theorem C1_level_filtering (T L S1 S2 : Int) (file : List Char) (line : Int)
    (ts msg : List Char) (e w : Int) :
    ((_log { logger := true, level := T } file line L ts msg e w).write = none
      ↔ T < L)
    ∧ (S1 < S2 →
        (_log { logger := true, level := S1 } file line S2 ts msg e w).write
          = none)
    ∧ (_log { logger := true, level := S1 } file line S1 ts msg e w).write ≠ none
    ∧ (0 ≤ T →
        (_log { logger := true, level := T } file line 0 ts msg e w).write
          ≠ none) := by
  have hiff : ∀ T' L' : Int,
      ((_log { logger := true, level := T' } file line L' ts msg e w).write
        = none ↔ T' < L') := by
    intro T' L'
    rw [_log_write_none_iff]
    simp
  refine ⟨hiff T L, fun h => (hiff S1 S2).mpr h, ?_, fun h hnone => ?_⟩
  · intro hnone
    exact absurd ((hiff S1 S1).mp hnone) (lt_irrefl S1)
  · have := (hiff T 0).mp hnone
    omega

/-- Witness for C1: threshold 2 suppresses a write at level 3. -/
theorem C1_level_filtering_witness :
    ((2 : Int) < 3)
    ∧ (_log { logger := true, level := 2 } "f.c".data 7 3 "T\n".data
        "m".data 0 0).write = none := by
  refine ⟨by decide, ?_⟩
  exact (C1_level_filtering 2 3 2 3 "f.c".data 7 "T\n".data "m".data
    0 0).2.1 (by decide)

/-- Claim C6: with no log target (`dl->logger == NULL`), `_log` and
`_log_hexdump` are no-ops: no write is performed and errno is left
untouched (the model's only caller-visible state). -/
theorem C6_inactive_noop (dl : debug_logger) (hdl : dl.logger = false)
    (file : List Char) (line level : Int) (ts msg : List Char)
    (data : List Nat) (e w : Int) :
    (_log dl file line level ts msg e w).write = none
    ∧ (_log dl file line level ts msg e w).errno_out = e
    ∧ (_log_hexdump dl level data e w).write = none
    ∧ (_log_hexdump dl level data e w).errno_out = e := by
  have h1 : _log dl file line level ts msg e w
      = { write := none, errno_out := e } := by
    unfold _log
    rw [if_pos (Or.inl hdl)]
  have h2 : _log_hexdump dl level data e w
      = { write := none, errno_out := e } := by
    unfold _log_hexdump
    rw [if_pos (Or.inl hdl)]
  rw [h1, h2]
  exact ⟨rfl, rfl, rfl, rfl⟩

/-- Witness for C6: an inactive logger performs no write. -/
theorem C6_inactive_noop_witness :
    (({ logger := false, level := 5 } : debug_logger).logger = false)
    ∧ (_log { logger := false, level := 5 } "f.c".data 3 0 "T\n".data
        "m".data 7 0).write = none := by
  refine ⟨rfl, ?_⟩
  exact (C6_inactive_noop { logger := false, level := 5 } rfl "f.c".data 3 0
    "T\n".data "m".data [65] 7 0).1

/-- Claim C9: `_log` and `_log_hexdump` leave errno as they found it:
the emitting paths save errno on entry and restore it after the write
(whatever value `write_errno` the write left), and the early-return
paths never touch it. -/
theorem C9_errno_preserved (dl : debug_logger) (file : List Char)
    (line level : Int) (ts msg : List Char) (data : List Nat) (e w : Int) :
    (_log dl file line level ts msg e w).errno_out = e
    ∧ (_log_hexdump dl level data e w).errno_out = e := by
  constructor
  · unfold _log
    split_ifs <;> rfl
  · unfold _log_hexdump
    split_ifs <;> rfl

/-- Claim C10: a hexdump of zero bytes on an active, passing-level
logger still issues exactly one write call, of zero bytes (the row loop
does not run, but `_log_write` is unconditional). -/
theorem C10_hexdump_empty_write (dl : debug_logger) (level : Int)
    (e w : Int) (hact : dl.logger = true) (hlvl : ¬ dl.level < level) :
    (_log_hexdump dl level [] e w).write = some [] := by
  have h := hexdump_write_eq dl level [] e w hact hlvl (by decide)
  rw [h]
  decide

/-- Witness for C10: the empty dump writes zero bytes. -/
theorem C10_hexdump_empty_write_witness :
    (¬ (5 : Int) < 0)
    ∧ (_log_hexdump { logger := true, level := 5 } 0 [] 9 0).write
        = some [] :=
  ⟨by decide, C10_hexdump_empty_write { logger := true, level := 5 } 0 9 0
    rfl (by decide)⟩

/-- Claim C7: hexdump of the single byte `'A'` (0x41) on an active
passing-level logger emits exactly one row: offset field `00000000`,
first hex field `41`, the remaining 15 hex fields space-padded so the
gutter aligns, and the ASCII gutter holding only the one real byte,
`|A|`. -/
theorem C7_hexdump_single_A :
    (_log_hexdump { logger := true, level := 7 } 7 [65] 0 0).write
      = some ("00000000  41".data ++ List.replicate 49 ' '
          ++ "|A|".data ++ ['\n']) := by
  decide

/-- Claim C3: every record `_log` writes fits the `LOG_MAX_LEN`-byte
stack buffer: both bounded-formatter calls keep the C invariant
`len ≤ LOG_MAX_LEN - 1` (so the NUL they store is in bounds too), and
the appended trailing newline lands at index at most
`LOG_MAX_LEN - 1`, for every message, file, timestamp and line. -/
theorem C3_log_record_bounded (dl : debug_logger) (file : List Char)
    (line level : Int) (ts msg : List Char) (e w : Int) (out : List Char)
    (hout : (_log dl file line level ts msg e w).write = some out) :
    out.length ≤ LOG_MAX_LEN := by
  by_cases h : dl.logger = false ∨ dl.level < level
  · rw [(_log_write_none_iff dl file line level ts msg e w).mpr h] at hout
    exact absurd hout (by simp)
  · push_neg at h
    have hact : dl.logger = true := by simpa using h.1
    rw [_log_write_some dl file line level ts msg e w hact
      (not_lt.mpr h.2)] at hout
    have hx := Option.some.inj hout
    subst hx
    have h1 : ([] : List Char).length ≤ LOG_MAX_LEN - 1 := by simp
    have h2 := scnApp_le (logHeader ts level file line) h1
    have h3 := scnApp_le msg h2
    simp only [List.length_append, List.length_cons, List.length_nil]
    have hL : LOG_MAX_LEN = 2560 := rfl
    omega

/-- Witness for C3: a concrete record stays within the buffer bound. -/
theorem C3_log_record_bounded_witness :
    ((_log { logger := true, level := 5 } "f.c".data 1 0 "T\n".data
        "m".data 0 0).write = some "[T][ALWAYS] f.c:1 m\n".data)
    ∧ "[T][ALWAYS] f.c:1 m\n".data.length ≤ LOG_MAX_LEN := by
  refine ⟨by decide, ?_⟩
  exact C3_log_record_bounded { logger := true, level := 5 } "f.c".data 1 0
    "T\n".data "m".data 0 0 "[T][ALWAYS] f.c:1 m\n".data (by decide)

/-- Claim C8: `debug_assert` always writes exactly one diagnostic line
naming the failed condition, file and line; iff `panic` is nonzero it
then invokes the stack-trace dump with skip count 1 followed by
`abort()`, and with `panic = 0` it just returns after the line. -/
theorem C8_assert_report (cond file : List Char) (line : Int) (panic : Int) :
    ((debug_assert cond file line panic).countP isStderrLine = 1)
    ∧ ((debug_assert cond file line panic).head?
        = some (dbg_event.stderr_line (assert_msg cond file line)))
    ∧ ((dbg_event.abort_called ∈ debug_assert cond file line panic)
        ↔ panic ≠ 0)
    ∧ (panic ≠ 0 → debug_assert cond file line panic
        = [dbg_event.stderr_line (assert_msg cond file line),
           dbg_event.stacktrace 1, dbg_event.abort_called])
    ∧ (panic = 0 → debug_assert cond file line panic
        = [dbg_event.stderr_line (assert_msg cond file line)]) := by
  by_cases h : panic = 0 <;>
    simp [debug_assert, h, isStderrLine, List.countP_cons]

/-- Witness for C8: a panicking assertion dumps a stack trace with skip
count 1 and aborts. -/
theorem C8_assert_report_witness :
    ((1 : Int) ≠ 0)
    ∧ debug_assert "x".data "f.c".data 3 1
        = [dbg_event.stderr_line (assert_msg "x".data "f.c".data 3),
           dbg_event.stacktrace 1, dbg_event.abort_called] := by
  refine ⟨by decide, ?_⟩
  exact (C8_assert_report "x".data "f.c".data 3 1).2.2.2.1 (by decide)

/-- Claim C2, counterexample: `debug_setup` with a successful
`log_create` but a failing first `signal_override` returns `CC_ERROR`,
yet the logger is left *active* (the target was installed before the
handlers were attempted), so a subsequent `_log` call does write — it
does not behave as if no target were configured. -/
theorem C2_counterexample :
    (debug_setup ⟨⟨false, 0⟩, false⟩ 4 true false true).1 = rstatus_i.CC_ERROR
    ∧ (_log (debug_setup ⟨⟨false, 0⟩, false⟩ 4 true false true).2.dlog
        "f.c".data 1 2 "T\n".data "m".data 0 0).write ≠ none := by
  decide

/-- Claim C2 (amended): if `debug_setup` fails because the log target
cannot be created, it returns `CC_ERROR` and the logger is inactive
(all `_log`/`_log_hexdump` calls are no-ops); if it fails because
either signal-handler installation fails, it returns `CC_ERROR` but
leaves the logger active with the new target and level installed. -/
theorem C2_setup_failure (st : debug_state) (lvl : Int) (s1 s2 : Bool) :
    ((debug_setup st lvl false s1 s2).1 = rstatus_i.CC_ERROR
      ∧ (debug_setup st lvl false s1 s2).2.dlog.logger = false
      ∧ (∀ (file : List Char) (line level : Int) (ts msg : List Char)
          (data : List Nat) (e w : Int),
          (_log (debug_setup st lvl false s1 s2).2.dlog file line level
            ts msg e w).write = none
          ∧ (_log_hexdump (debug_setup st lvl false s1 s2).2.dlog level
              data e w).write = none))
    ∧ ((s1 = false ∨ s2 = false) →
        (debug_setup st lvl true s1 s2).1 = rstatus_i.CC_ERROR
        ∧ (debug_setup st lvl true s1 s2).2.dlog
            = { logger := true, level := lvl }) := by
  constructor
  · have hdl : (debug_setup st lvl false s1 s2).2.dlog.logger = false := by
      unfold debug_setup
      simp
    refine ⟨?_, hdl, ?_⟩
    · unfold debug_setup
      simp
    · intro file line level ts msg data e w
      exact ⟨(_log_write_none_iff _ _ _ _ _ _ _ _).mpr (Or.inl hdl),
        (_log_hexdump_write_none_iff _ _ _ _ _).mpr (Or.inl hdl)⟩
  · intro h
    unfold debug_setup
    rcases h with h | h
    · subst h
      simp
    · subst h
      cases s1 <;> simp

/-- Witness for C2: a failing handler install yields an error result
with the logger still active at the requested level. -/
theorem C2_setup_failure_witness :
    ((false = false ∨ true = false))
    ∧ ((debug_setup ⟨⟨false, 0⟩, false⟩ 4 true false true).1
          = rstatus_i.CC_ERROR
        ∧ (debug_setup ⟨⟨false, 0⟩, false⟩ 4 true false true).2.dlog
            = { logger := true, level := 4 }) := by
  refine ⟨Or.inl rfl, ?_⟩
  exact (C2_setup_failure ⟨⟨false, 0⟩, false⟩ 4 false true).2 (Or.inl rfl)

/-- Claim C4, counterexample: for the one-byte buffer `[0x20]` (a space
character) the single row's ASCII gutter, the character between the
`"  |"` separator (output position 62) and the closing `'|'`, is the
printable byte itself — a space — so it contains 0 non-space
characters, not `length mod 16 = 1` as the claim requires of every
buffer. -/
theorem C4_counterexample :
    ((_log_hexdump { logger := true, level := 5 } 0 [32] 0 0).write
      = some ("00000000  20".data ++ List.replicate 49 ' ' ++ "| |\n".data))
    ∧ ¬ (((((_log_hexdump { logger := true, level := 5 } 0 [32] 0
            0).write.getD []).drop 62).take 1).countP
          (fun c => c != ' ') = 1) := by
  decide

/-- Claim C4 (amended): on an active passing-level logger, whenever the
full rendering fits the `8 * LOG_MAX_LEN` output buffer (no
truncation), the hexdump write is exactly `rowsFlat data`:
`⌈n/16⌉` rows, row `k` rendered by `rowP` at offset `16·k` (eight
zero-padded hex digits, advancing 16 per row regardless of how short
the final chunk is); the output contains exactly `⌈n/16⌉` newlines, one
per row; and the last row's chunk — whose gutter holds exactly one
character per chunk byte (spaces for space bytes) — has
`n mod 16` bytes, or 16 when `16 ∣ n`. -/
theorem C4_hexdump_geometry (dl : debug_logger) (level : Int)
    (data : List Nat) (e w : Int)
    (hact : dl.logger = true) (hlvl : ¬ dl.level < level)
    (hfit : 64 * ((data.length + 15) / 16) + data.length + 1
      ≤ 8 * LOG_MAX_LEN) :
    (_log_hexdump dl level data e w).write = some (rowsFlat data)
    ∧ List.count '\n' (rowsFlat data) = (data.length + 15) / 16
    ∧ (data ≠ [] →
        ((data.drop (16 * ((data.length + 15) / 16 - 1))).take 16).length
          = if data.length % 16 = 0 then 16 else data.length % 16) := by
  refine ⟨hexdump_write_eq dl level data e w hact hlvl hfit, ?_, ?_⟩
  · have hc := rowsPGo_count_nl data.length data 0 le_rfl
    rw [rowsPGo_flat data.length data 0 le_rfl] at hc
    unfold rowsFlat
    simp only [Nat.zero_add] at hc
    exact hc
  · intro hne
    have hlp : 0 < data.length := List.length_pos.mpr hne
    simp only [List.length_take, List.length_drop]
    by_cases hmod : data.length % 16 = 0
    · simp only [hmod, if_pos]
      omega
    · rw [if_neg hmod]
      omega

/-- Witness for C4: a 17-byte buffer yields two rows of the stated
geometry. -/
theorem C4_hexdump_geometry_witness :
    (64 * (((List.replicate 17 65).length + 15) / 16)
        + (List.replicate 17 65).length + 1 ≤ 8 * LOG_MAX_LEN)
    ∧ ((_log_hexdump { logger := true, level := 5 } 0
          (List.replicate 17 65) 0 0).write
        = some (rowsFlat (List.replicate 17 65))
      ∧ List.count '\n' (rowsFlat (List.replicate 17 65))
          = ((List.replicate 17 65).length + 15) / 16
      ∧ (List.replicate 17 65 ≠ [] →
          (((List.replicate 17 65).drop
              (16 * (((List.replicate 17 65).length + 15) / 16 - 1))).take
              16).length
            = if (List.replicate 17 65).length % 16 = 0 then 16
              else (List.replicate 17 65).length % 16)) :=
  ⟨by decide, C4_hexdump_geometry { logger := true, level := 5 } 0
    (List.replicate 17 65) 0 0 rfl (by decide) (by decide)⟩

/-- Claim C5, counterexample: a 2600-character message overflows the
`LOG_MAX_LEN` buffer; the emitted line is silently truncated, so it is
not the exact `[timestamp][LEVEL] file:line message` line for that
message — the claim's exact form fails for over-long records. -/
theorem C5_counterexample :
    (_log { logger := true, level := 5 } "f.c".data 1 0
        ("Thu Jan  1 00:00:00 1970".data ++ ['\n'])
        (List.replicate 2600 'a') 0 0).write
      ≠ some (logLineSpec "Thu Jan  1 00:00:00 1970".data
          (level_str.getD (0 : Int).toNat []) "f.c".data 1
          (List.replicate 2600 'a')) := by
  intro hEq
  rw [_log_write_some { logger := true, level := 5 } "f.c".data 1 0
    ("Thu Jan  1 00:00:00 1970".data ++ ['\n'])
    (List.replicate 2600 'a') 0 0 rfl (by decide)] at hEq
  have h := Option.some.inj hEq
  have hlen := congrArg List.length h
  have h1 : (scnApp LOG_MAX_LEN []
      (logHeader ("Thu Jan  1 00:00:00 1970".data ++ ['\n']) 0
        "f.c".data 1)).length = 41 := by
    rw [scnApp_len]
    decide
  have h2 : (scnApp LOG_MAX_LEN (scnApp LOG_MAX_LEN []
      (logHeader ("Thu Jan  1 00:00:00 1970".data ++ ['\n']) 0
        "f.c".data 1)) (List.replicate 2600 'a')).length = 2559 := by
    rw [scnApp_len, h1, List.length_replicate]
    decide
  have h3 : (logLineSpec "Thu Jan  1 00:00:00 1970".data
      (level_str.getD (0 : Int).toNat []) "f.c".data 1
      (List.replicate 2600 'a')).length = 2642 := by
    simp only [logLineSpec, List.length_append, List.length_cons,
      List.length_nil, List.length_replicate]
    decide
  rw [h3] at hlen
  simp only [List.length_append, List.length_cons, List.length_nil,
    h2] at hlen
  omega

/-- Claim C5 (amended): whenever the rendered line fits the
`LOG_MAX_LEN` buffer, the record `_log` writes is bit-for-bit the
spec's line `[<asctime-without-trailing-newline>][<LEVEL-NAME>]
<file>:<line> <message>` followed by exactly one appended `'\n'`
(nothing after it), delivered in the single write call; `ts0` is the
`asctime` string without its trailing newline. -/
theorem C5_log_line_format (dl : debug_logger) (file : List Char)
    (line level : Int) (ts0 msg : List Char) (e w : Int)
    (hact : dl.logger = true) (hlvl : ¬ dl.level < level)
    (hfit : (logLineSpec ts0 (level_str.getD level.toNat []) file line
      msg).length ≤ LOG_MAX_LEN) :
    (_log dl file line level (ts0 ++ ['\n']) msg e w).write
      = some (logLineSpec ts0 (level_str.getD level.toNat []) file line
          msg) := by
  rw [_log_write_some dl file line level (ts0 ++ ['\n']) msg e w hact hlvl]
  have hts : (ts0 ++ ['\n']).take ((ts0 ++ ['\n']).length - 1) = ts0 := by
    have hlen1 : (ts0 ++ ['\n']).length - 1 = ts0.length := by simp
    rw [hlen1]
    exact List.take_left ts0 ['\n']
  have hdr : logHeader (ts0 ++ ['\n']) level file line
      = "[".data ++ ts0 ++ "][".data ++ level_str.getD level.toNat []
        ++ "] ".data ++ file ++ ":".data ++ (toString line).data
        ++ " ".data := by
    unfold logHeader
    rw [hts]
  have hlen : (logLineSpec ts0 (level_str.getD level.toNat []) file line
        msg).length
      = (logHeader (ts0 ++ ['\n']) level file line).length
        + msg.length + 1 := by
    rw [hdr]
    simp only [logLineSpec, List.length_append, List.length_cons,
      List.length_nil]
  have h1 : scnApp LOG_MAX_LEN []
        (logHeader (ts0 ++ ['\n']) level file line)
      = [] ++ logHeader (ts0 ++ ['\n']) level file line :=
    scnApp_full (by simp only [List.length_nil]; omega)
  have h2 : scnApp LOG_MAX_LEN (logHeader (ts0 ++ ['\n']) level file line)
        msg
      = logHeader (ts0 ++ ['\n']) level file line ++ msg :=
    scnApp_full (by omega)
  rw [h1]
  simp only [List.nil_append]
  rw [h2, hdr]
  simp only [logLineSpec, List.append_assoc]

/-- Witness for C5: a concrete fitting record matches the spec line. -/
theorem C5_log_line_format_witness :
    ((logLineSpec "T".data (level_str.getD (0 : Int).toNat []) "f.c".data 1
        "m".data).length ≤ LOG_MAX_LEN)
    ∧ (_log { logger := true, level := 5 } "f.c".data 1 0
          ("T".data ++ ['\n']) "m".data 0 0).write
        = some (logLineSpec "T".data (level_str.getD (0 : Int).toNat [])
            "f.c".data 1 "m".data) := by
  refine ⟨by decide, ?_⟩
  exact C5_log_line_format { logger := true, level := 5 } "f.c".data 1 0
    "T".data "m".data 0 0 rfl (by decide) (by decide)
